import Mathlib

/-!
Shallow embedding of the katzenpost/multispool spool engine
(src/spool.rs, src/lib.rs, src/errors.rs) and proofs about it.

Modelling conventions:
* Bytes are `List Nat` (each entry intended `< 256`); `be32`/`readU32`
  translate `BigEndian::write_u32` / `BigEndian::read_u32`.
* A sled `Tree` is an association list `List (key × value)`; `set` is
  modelled by `setKey` (insert-or-replace), `del` by `delKey`, `get` by
  `getKey`, `contains_key` by `(getKey _ _).isSome`.
* Ed25519 keys and signatures are opaque tokens (`Nat`); the only
  verification pattern the source uses is
  `pk.verify(&pk.to_bytes(), &sig)`, modelled by an abstract boolean
  function `verify : PubKey → Sig → Bool` passed to each operation.
* Fallible Rust paths return `Except`; paths that can panic or diverge
  (slice-length panics in lib.rs, the unbounded repair loop in
  `ensure_consistency`) return `Option` with `none` for panic/divergence.
-/

namespace Multispool

/-! ## Bytes and big-endian u32 encoding -/

abbrev Bytes := List Nat

/-- `BigEndian::write_u32`: the four big-endian bytes of `n` (mod 2^32). -/
def be32 (n : Nat) : Bytes :=
  [n / 2 ^ 24 % 256, n / 2 ^ 16 % 256, n / 2 ^ 8 % 256, n % 256]

/-- `BigEndian::read_u32`: read the first four bytes big-endian.
The source panics on buffers shorter than four bytes; all call sites in
the source pass four-byte values, and every claim constrains inputs to
such values, so the `0` default for short buffers is never relied upon. -/
def readU32 : Bytes → Nat
  | b0 :: b1 :: b2 :: b3 :: _ => ((b0 * 256 + b1) * 256 + b2) * 256 + b3
  | _ => 0

theorem readU32_be32 (n : Nat) : readU32 (be32 n) = n % 2 ^ 32 := by
  simp only [be32, readU32]
  omega

theorem readU32_be32_of_lt {n : Nat} (h : n < 2 ^ 32) : readU32 (be32 n) = n := by
  rw [readU32_be32, Nat.mod_eq_of_lt h]

theorem be32_inj {a b : Nat} (ha : a < 2 ^ 32) (hb : b < 2 ^ 32)
    (h : be32 a = be32 b) : a = b := by
  have := congrArg readU32 h
  rwa [readU32_be32_of_lt ha, readU32_be32_of_lt hb] at this

/-! ## Association-list model of sled trees -/

def getKey {α β : Type} [DecidableEq α] : List (α × β) → α → Option β
  | [], _ => none
  | (k, v) :: rest, x => if k = x then some v else getKey rest x

def setKey {α β : Type} [DecidableEq α] (t : List (α × β)) (k : α) (v : β) :
    List (α × β) :=
  (k, v) :: t.filter (fun kv => kv.1 ≠ k)

def delKey {α β : Type} [DecidableEq α] (t : List (α × β)) (k : α) :
    List (α × β) :=
  t.filter (fun kv => kv.1 ≠ k)

theorem getKey_filter {α β : Type} [DecidableEq α] (p : α → Bool)
    (t : List (α × β)) (x : α) :
    getKey (t.filter (fun kv => p kv.1)) x =
      if p x then getKey t x else none := by
  induction t with
  | nil => simp [getKey]
  | cons kv rest ih =>
    obtain ⟨k, v⟩ := kv
    by_cases hk : k = x
    · subst hk
      by_cases hp : p k
      · simp [List.filter_cons, hp, getKey, ih]
      · simp only [List.filter_cons, hp, Bool.false_eq_true, if_false] at *
        simpa [hp] using ih
    · by_cases hp : p k
      · simp [List.filter_cons, hp, getKey, hk, ih]
      · simp [List.filter_cons, hp, getKey, hk, ih]

theorem getKey_setKey_same {α β : Type} [DecidableEq α]
    (t : List (α × β)) (k : α) (v : β) : getKey (setKey t k v) k = some v := by
  simp [setKey, getKey]

theorem getKey_delKey_same {α β : Type} [DecidableEq α]
    (t : List (α × β)) (k : α) : getKey (delKey t k) k = none := by
  have h2 := getKey_filter (fun a => decide (a ≠ k)) t k
  rw [if_neg (by simp)] at h2
  simpa [delKey] using h2

theorem getKey_delKey_ne {α β : Type} [DecidableEq α]
    (t : List (α × β)) {k x : α} (h : k ≠ x) :
    getKey (delKey t k) x = getKey t x := by
  have h2 := getKey_filter (fun a => decide (a ≠ k)) t x
  rw [if_pos (by simp [Ne.symm h])] at h2
  simpa [delKey] using h2

theorem getKey_setKey_ne {α β : Type} [DecidableEq α]
    (t : List (α × β)) {k x : α} (v : β) (h : k ≠ x) :
    getKey (setKey t k v) x = getKey t x := by
  simp only [setKey, getKey, if_neg h]
  exact getKey_delKey_ne t h

/-- `getKey` is `some` exactly on the stored keys. -/
theorem getKey_isSome_iff_mem {α β : Type} [DecidableEq α]
    (t : List (α × β)) (x : α) :
    (getKey t x).isSome = true ↔ x ∈ t.map Prod.fst := by
  induction t with
  | nil => simp [getKey]
  | cons kv rest ih =>
    obtain ⟨k, v⟩ := kv
    by_cases hk : k = x
    · subst hk; simp [getKey]
    · simp [getKey, hk, ih, Ne.symm hk]

/-! ## Error types (src/errors.rs) -/

/-- `errors.rs` `SpoolError`. The payload-carrying variants (`SledError`,
`IoError`) stand for engine/filesystem failures that the pure model does
not produce; they are kept so the enum mirrors the source. -/
inductive SpoolError
  | CreateSpoolCacheFailed
  | SledError
  | IoError
  | NoSuchMessage
  | CorruptSpool
deriving DecidableEq, Repr

/-- `errors.rs` `SpoolSetError`. -/
inductive SpoolSetError
  | CreateSpoolSetCacheFailed
  | SledError
  | NoSuchSpoolId
  | SignatureError
deriving DecidableEq, Repr

/-- `errors.rs` `MultiSpoolError`. -/
inductive MultiSpoolError
  | SpoolSetError (e : SpoolSetError)
  | SpoolError (e : SpoolError)
  | SledError
  | NoSuchSpool
  | SignatureError
  | IoError
deriving DecidableEq, Repr

/-! ## Spool (src/spool.rs, `impl Spool`) -/

/-- A message payload. The Rust type `[u8; MESSAGE_SIZE]` fixes the
length at the opaque constant `MESSAGE_SIZE = USER_FORWARD_PAYLOAD_SIZE`;
the spool operations never inspect the payload, so the model leaves the
length unconstrained. -/
abbrev Msg := Bytes

/-- In-memory `Spool` state: `last_key` plus the two sled trees of its
database. `db` is the primary (data) tree; `meta` is the value stored at
`END_KEY` in the `meta_tree_id` sub-tree (the only key that tree ever
holds). -/
structure Spool where
  lastKey : Option Nat
  db : List (Bytes × Msg)
  meta : Option Bytes
deriving DecidableEq, Repr

/-- On-disk contents of one spool database, as seen by `Spool::new`. -/
structure SpoolDisk where
  data : List (Bytes × Msg)
  meta : Option Bytes
deriving DecidableEq, Repr

/-- `increment_merge` (spool.rs lines 82-94), the sled merge operator
installed for `END_KEY`. -/
def increment_merge (old_value : Option Bytes) (new_value : Bytes) :
    Option Bytes :=
  match old_value with
  | some old_value_bytes =>
    let old : Nat := readU32 old_value_bytes
    let new : Nat := readU32 new_value
    if old = new then some old_value_bytes
    else if old > new then some old_value_bytes
    else some new_value
  | none => some new_value

/-- The single repair loop of `Spool::ensure_consistency`
(spool.rs lines 133-144): walk upward from `last_key` while the data
tree contains the successor key; stop at the first absent successor.
The Rust loop has no bound and would spin forever only if every u32 key
were present; the model makes that explicit with fuel (`none` =
divergence), which the caller sizes so that it is never exhausted on
states a finite tree can reach. -/
def consistencyLoop (db : List (Bytes × Msg)) : Nat → Nat → Option Nat
  | fuel, lastKey =>
    let next := (lastKey + 1) % 2 ^ 32
    if (getKey db (be32 next)).isSome then
      match fuel with
      | 0 => none
      | fuel' + 1 => consistencyLoop db fuel' next
    else some lastKey

/-- `Spool::ensure_consistency` (spool.rs lines 121-145). If `END_KEY`
is absent, return the state unchanged. Otherwise run the repair loop and
rewrite `meta[END_KEY]` and `last_key` to the resting key. The source
re-reads `END_KEY` after the early return and has a `CorruptSpool`
branch guarded by that re-read being `None`; in this pure model the
re-read necessarily yields the same present value, so that branch is
unreachable (theorem `ensureConsistency_no_corrupt` below makes the
unreachability explicit). -/
def Spool.ensureConsistency (s : Spool) : Option (Except SpoolError Spool) :=
  match s.meta with
  | none => some (.ok s)
  | some raw =>
    match consistencyLoop s.db (s.db.length + 1) (readU32 raw) with
    | none => none
    | some k => some (.ok { s with lastKey := some k, meta := some (be32 k) })

/-- `Spool::new` (spool.rs lines 80-119): open the trees, run
`ensure_consistency`, then compute `last_key` from `meta[END_KEY]`. -/
def Spool.new (disk : SpoolDisk) : Option (Except SpoolError Spool) :=
  let s0 : Spool := { lastKey := none, db := disk.data, meta := disk.meta }
  match Spool.ensureConsistency s0 with
  | none => none
  | some (.error e) => some (.error e)
  | some (.ok s1) =>
    match s1.meta with
    | none => some (.ok { s1 with lastKey := none })
    | some raw => some (.ok { s1 with lastKey := some (readU32 raw) })

/-- `Spool::purge` (spool.rs lines 147-152): drop the meta tree, clear
the data tree, set `last_key = Some(0)`. -/
def Spool.purge (_s : Spool) : Spool :=
  { lastKey := some 0, db := [], meta := none }

/-- `Spool::append` (spool.rs lines 154-168). With `last_key = Some(k)`
the new key is `k + 1` (u32 arithmetic, hence mod 2^32); with
`last_key = None` the new key is `0` (the zero-initialised key buffer is
written unmodified). The message is stored in the data tree and the new
key merged into `meta[END_KEY]` via `increment_merge`. -/
def Spool.append (s : Spool) (message : Msg) : Spool :=
  match s.lastKey with
  | some k =>
    let k' := (k + 1) % 2 ^ 32
    { lastKey := some k',
      db := setKey s.db (be32 k') message,
      meta := increment_merge s.meta (be32 k') }
  | none =>
    { lastKey := some 0,
      db := setKey s.db (be32 0) message,
      meta := increment_merge s.meta (be32 0) }

/-- `Spool::read` (spool.rs lines 170-175). The stored value is exactly
the appended `MESSAGE_SIZE`-byte message, so the source's
`array_ref![message, 0, MESSAGE_SIZE]` returns it unchanged. -/
def Spool.read (s : Spool) (message_id : Bytes) : Except SpoolError Msg :=
  match getKey s.db message_id with
  | some message => .ok message
  | none => .error .NoSuchMessage

/-- The state `Spool::new` yields on a fresh (empty) database. -/
def freshSpool : Spool := { lastKey := none, db := [], meta := none }

/-- Folding `Spool::append` over a list of messages. -/
def appendAll (s : Spool) (msgs : List Msg) : Spool :=
  msgs.foldl Spool.append s

theorem spoolNew_fresh : Spool.new { data := [], meta := none } = some (.ok freshSpool) := rfl

/-! ## SpoolSet (src/spool.rs, `impl SpoolSet`) -/

/-- Spool identity: 12 bytes (`SPOOL_ID_SIZE`). -/
abbrev SpoolId := Bytes

/-- An Ed25519 public key, opaque in the model. The source stores
`public_key.to_bytes()` (32 bytes) in the metadata tree and decodes it
back with `PublicKey::from_bytes`; that round-trip is the identity on
valid keys, so the model stores the key itself. -/
abbrev PubKey := Nat

/-- An Ed25519 signature, opaque in the model. -/
abbrev Sig := Nat

/-- `pk.verify(&pk.to_bytes(), &sig)` — the only verification pattern
the source uses (self-certification over the key's own bytes). Modelled
as an abstract boolean function supplied to each operation. -/
abbrev VerifyFn := PubKey → Sig → Bool

/-- `SpoolSet` state: the primary tree (`spool_id ↦ empty value`) and
the metadata tree (`spool_id ↦ public key`). -/
structure SpoolSet where
  db : List (SpoolId × Bytes)
  meta : List (SpoolId × PubKey)
deriving DecidableEq, Repr

/-- `SpoolSet::put` (spool.rs lines 220-224). -/
def SpoolSet.put (ss : SpoolSet) (spool_id : SpoolId) (public_key : PubKey) :
    SpoolSet :=
  { db := setKey ss.db spool_id [], meta := setKey ss.meta spool_id public_key }

/-- `SpoolSet::has` (spool.rs lines 226-228). -/
def SpoolSet.has (ss : SpoolSet) (spool_id : SpoolId) : Bool :=
  (getKey ss.db spool_id).isSome

/-- `SpoolSet::delete` (spool.rs lines 230-234). -/
def SpoolSet.delete (ss : SpoolSet) (spool_id : SpoolId) : SpoolSet :=
  { db := delKey ss.db spool_id, meta := delKey ss.meta spool_id }

/-- `SpoolSet::keys` (spool.rs lines 236-238): the primary tree's keys. -/
def SpoolSet.keys (ss : SpoolSet) : List SpoolId :=
  ss.db.map Prod.fst

/-- `SpoolSet::get_public_key` (spool.rs lines 240-245). Decode failure
of stored bytes (`SignatureError`) cannot occur in the model because the
tree stores keys directly. -/
def SpoolSet.getPublicKey (ss : SpoolSet) (spool_id : SpoolId) :
    Except SpoolSetError PubKey :=
  match getKey ss.meta spool_id with
  | some pub_key => .ok pub_key
  | none => .error .NoSuchSpoolId

/-- `SpoolSet::ensure_consistency` (spool.rs lines 204-218): first
delete from the primary tree every key absent from the metadata tree,
then delete from the metadata tree every key absent from the (already
repaired) primary tree. -/
def SpoolSet.ensureConsistency (ss : SpoolSet) : SpoolSet :=
  let db' := ss.db.filter (fun kv => (getKey ss.meta kv.1).isSome)
  let meta' := ss.meta.filter (fun kv => (getKey db' kv.1).isSome)
  { db := db', meta := meta' }

/-! ## MultiSpool (src/spool.rs, `impl MultiSpool`) -/

/-- `MultiSpool` state. The base directory and on-disk paths are not
modelled; `spool_path` is injective in `spool_id`, so the id itself
identifies the spool database. -/
structure MultiSpool where
  map : List (SpoolId × Spool)
  spoolSet : SpoolSet
deriving DecidableEq, Repr

/-- The on-disk state `MultiSpool::new` starts from: the spool-set
database plus one spool database per id (ids whose directory is missing
read as empty databases). -/
structure DiskState where
  spoolSet : SpoolSet
  spools : List (SpoolId × SpoolDisk)
deriving DecidableEq, Repr

/-- The loop body of `MultiSpool::new` (spool.rs lines 275-293): open
each spool listed in the spool set; on `CorruptSpool`, quarantine it
(delete the id from the spool set, remove its directory — the directory
removal has no model counterpart); on any other spool error, abort. -/
def loadSpools (disk : List (SpoolId × SpoolDisk)) :
    List SpoolId → SpoolSet → List (SpoolId × Spool) →
    Option (Except MultiSpoolError (SpoolSet × List (SpoolId × Spool)))
  | [], ss, map => some (.ok (ss, map))
  | spool_id :: rest, ss, map =>
    match Spool.new ((getKey disk spool_id).getD { data := [], meta := none }) with
    | none => none
    | some (.ok sp) => loadSpools disk rest ss (setKey map spool_id sp)
    | some (.error SpoolError.CorruptSpool) =>
      loadSpools disk rest (ss.delete spool_id) map
    | some (.error e) => some (.error (.SpoolError e))

/-- `MultiSpool::new` (spool.rs lines 270-299): open the spool set (its
constructor runs the consistency repair), then load every spool whose id
it lists, quarantining corrupt ones. The iteration runs over a clone of
the key list taken before any quarantine deletion, as in the source. -/
def MultiSpool.new (disk : DiskState) : Option (Except MultiSpoolError MultiSpool) :=
  let ss := disk.spoolSet.ensureConsistency
  match loadSpools disk.spools ss.keys ss [] with
  | none => none
  | some (.error e) => some (.error e)
  | some (.ok (ss', map)) => some (.ok { map := map, spoolSet := ss' })

/-- `MultiSpool::create_spool` (spool.rs lines 318-333). The 12 random
bytes drawn from the rng are passed in as `freshId`. A fresh path yields
an empty database, so `Spool::new` produces `freshSpool`
(`spoolNew_fresh`). The final line of the source is
`Err(MultiSpoolError::NoSuchSpool) // XXX` — it discards the computed
`spool_id` and returns an error even though the spool was created. -/
def MultiSpool.createSpool (verify : VerifyFn) (ms : MultiSpool)
    (public_key : PubKey) (signature : Sig) (freshId : SpoolId) :
    Except MultiSpoolError SpoolId × MultiSpool :=
  if verify public_key signature then
    let spoolSet' := ms.spoolSet.put freshId public_key
    let map' := setKey ms.map freshId freshSpool
    (.error .NoSuchSpool, { map := map', spoolSet := spoolSet' })
  else
    (.error .SignatureError, ms)

/-- `MultiSpool::get_mut_spool` / `get_spool` (spool.rs lines 301-316). -/
def MultiSpool.getSpool (ms : MultiSpool) (spool_id : SpoolId) :
    Except MultiSpoolError Spool :=
  match getKey ms.map spool_id with
  | some sp => .ok sp
  | none => .error .NoSuchSpool

/-- `MultiSpool::purge_spool` (spool.rs lines 335-345): fetch the stored
public key, verify the signature over it, purge the spool through the
map, delete the id from the spool set, remove the map entry. -/
def MultiSpool.purgeSpool (verify : VerifyFn) (ms : MultiSpool)
    (spool_id : SpoolId) (signature : Sig) :
    Except MultiSpoolError Unit × MultiSpool :=
  match ms.spoolSet.getPublicKey spool_id with
  | .error e => (.error (.SpoolSetError e), ms)
  | .ok pub_key =>
    if verify pub_key signature then
      match getKey ms.map spool_id with
      | none => (.error .NoSuchSpool, ms)
      | some sp =>
        let map1 := setKey ms.map spool_id sp.purge
        (.ok (), { map := delKey map1 spool_id,
                   spoolSet := ms.spoolSet.delete spool_id })
    else (.error .SignatureError, ms)

/-- `MultiSpool::append_to_spool` (spool.rs lines 347-354): look the
spool up (no signature is taken and none is verified) and append. -/
def MultiSpool.appendToSpool (ms : MultiSpool) (spool_id : SpoolId)
    (message : Msg) : Except MultiSpoolError Unit × MultiSpool :=
  match getKey ms.map spool_id with
  | none => (.error .NoSuchSpool, ms)
  | some sp =>
    (.ok (), { ms with map := setKey ms.map spool_id (sp.append message) })

/-- `MultiSpool::read_from_spool` (spool.rs lines 356-364). -/
def MultiSpool.readFromSpool (verify : VerifyFn) (ms : MultiSpool)
    (spool_id : SpoolId) (signature : Sig) (message_id : Bytes) :
    Except MultiSpoolError Msg :=
  match ms.spoolSet.getPublicKey spool_id with
  | .error e => .error (.SpoolSetError e)
  | .ok pub_key =>
    if verify pub_key signature then
      match getKey ms.map spool_id with
      | none => .error .NoSuchSpool
      | some sp =>
        match sp.read message_id with
        | .ok m => .ok m
        | .error e => .error (.SpoolError e)
    else .error .SignatureError

/-! ## Dispatcher operations (src/lib.rs) -/

/-- `SPOOL_ID_SIZE` (spool.rs line 61). -/
def SPOOL_ID_SIZE : Nat := 12

/-- `MESSAGE_ID_SIZE` (spool.rs line 47). -/
def MESSAGE_ID_SIZE : Nat := 4

/-- `SpoolRequest` (lib.rs lines 49-63), as decoded from CBOR: every
byte field is a `Vec<u8>` of arbitrary length. -/
structure SpoolRequest where
  Command : Nat
  SpoolID : Bytes
  Signature : Bytes
  PublicKey : Bytes
  MessageID : Bytes
  Message : Bytes
deriving DecidableEq, Repr

/-- `SpoolResponse` (lib.rs lines 65-73). -/
structure SpoolResponse where
  SpoolID : Bytes
  Message : Bytes
  Status : String
deriving DecidableEq, Repr

/-- `error_response` (lib.rs lines 75-81). -/
def error_response (error_message : String) : SpoolResponse :=
  { SpoolID := [], Message := [], Status := error_message }

/-- `ed25519_dalek::Signature::from_bytes`: succeeds exactly on 64-byte
inputs (the decoded token is opaque; an injective fold stands in for
it). -/
def sigFromBytes (b : Bytes) : Option Sig :=
  if b.length = 64 then some (b.foldl (fun a x => a * 256 + x) 0) else none

/-- `ed25519_dalek::PublicKey::from_bytes`: requires a 32-byte input.
(The source additionally rejects byte strings that are not valid curve
points; that refinement is irrelevant to the claims, which only need
that well-sized inputs can decode.) -/
def pubKeyFromBytes (b : Bytes) : Option PubKey :=
  if b.length = 32 then some (b.foldl (fun a x => a * 256 + x) 0) else none

/-- lib.rs `create_spool` (lines 83-107). `freshId` stands for the
`OsRng` draw inside `MultiSpool::create_spool`. This path never copies
request bytes into fixed arrays, so it cannot panic (`some` always). -/
def dispatchCreateSpool (verify : VerifyFn) (freshId : SpoolId)
    (spool_request : SpoolRequest) (multi_spool : MultiSpool) :
    Option (SpoolResponse × MultiSpool) :=
  match sigFromBytes spool_request.Signature with
  | none => some (error_response "error: invalid signature", multi_spool)
  | some signature =>
    match pubKeyFromBytes spool_request.PublicKey with
    | none => some (error_response "error: invalid ed25519 public key", multi_spool)
    | some pub_key =>
      match multi_spool.createSpool verify pub_key signature freshId with
      | (.ok spool_id, ms') =>
        some ({ SpoolID := spool_id, Message := [], Status := "OK" }, ms')
      | (.error _, ms') =>
        some (error_response "error: invalid create spool failed", ms')

/-- lib.rs `purge_spool` (lines 109-135). The source copies
`spool_request.SpoolID` into a `[u8; SPOOL_ID_SIZE]` with
`clone_from_slice`, which panics when the lengths differ; `none` models
that panic. -/
def dispatchPurgeSpool (verify : VerifyFn) (spool_request : SpoolRequest)
    (multi_spool : MultiSpool) : Option (SpoolResponse × MultiSpool) :=
  match sigFromBytes spool_request.Signature with
  | none => some (error_response "error: invalid signature", multi_spool)
  | some signature =>
    match pubKeyFromBytes spool_request.PublicKey with
    | none => some (error_response "error: invalid ed25519 public key", multi_spool)
    | some _pub_key =>
      if spool_request.SpoolID.length = SPOOL_ID_SIZE then
        match multi_spool.purgeSpool verify spool_request.SpoolID signature with
        | (.ok _, ms') =>
          some ({ SpoolID := spool_request.SpoolID, Message := [], Status := "OK" }, ms')
        | (.error _, ms') =>
          some (error_response "error: purge spool failed", ms')
      else none

/-- lib.rs `append_to_spool` (lines 137-156). The source first copies
`Message` into `[u8; MESSAGE_SIZE]` with `copy_from_slice` and then
`SpoolID` into `[u8; SPOOL_ID_SIZE]` with `clone_from_slice`; each
panics on a length mismatch (`none`). `messageSize` is the opaque
compile-time constant `MESSAGE_SIZE`. -/
def dispatchAppendToSpool (messageSize : Nat) (spool_request : SpoolRequest)
    (multi_spool : MultiSpool) : Option (SpoolResponse × MultiSpool) :=
  if spool_request.Message.length = messageSize then
    if spool_request.SpoolID.length = SPOOL_ID_SIZE then
      match multi_spool.appendToSpool spool_request.SpoolID spool_request.Message with
      | (.ok _, ms') =>
        some ({ SpoolID := spool_request.SpoolID, Message := [], Status := "OK" }, ms')
      | (.error _, ms') =>
        some (error_response "error: purge spool failed", ms')
    else none
  else none

/-- lib.rs `read_from_spool` (lines 158-186). Copies `SpoolID` and then
`MessageID` into fixed arrays with `clone_from_slice`; each panics on a
length mismatch (`none`). -/
def dispatchReadFromSpool (verify : VerifyFn) (spool_request : SpoolRequest)
    (multi_spool : MultiSpool) : Option SpoolResponse :=
  match sigFromBytes spool_request.Signature with
  | none => some (error_response "error: invalid signature")
  | some signature =>
    match pubKeyFromBytes spool_request.PublicKey with
    | none => some (error_response "error: invalid ed25519 public key")
    | some _pub_key =>
      if spool_request.SpoolID.length = SPOOL_ID_SIZE then
        if spool_request.MessageID.length = MESSAGE_ID_SIZE then
          match multi_spool.readFromSpool verify spool_request.SpoolID signature
              spool_request.MessageID with
          | .ok response_message =>
            some { SpoolID := spool_request.SpoolID, Message := response_message,
                   Status := "OK" }
          | .error _ => some (error_response "error: purge spool failed")
        else none
      else none

/-! ## SpoolSet operation sequences (for the key-equality invariant) -/

/-- An abstract `SpoolSet` mutation: the two write operations the
source exposes. -/
inductive SpoolSetOp
  | put (spool_id : SpoolId) (public_key : PubKey)
  | delete (spool_id : SpoolId)
deriving DecidableEq, Repr

def applyOp (ss : SpoolSet) : SpoolSetOp → SpoolSet
  | .put spool_id public_key => ss.put spool_id public_key
  | .delete spool_id => ss.delete spool_id

def applyOps (ss : SpoolSet) (ops : List SpoolSetOp) : SpoolSet :=
  ops.foldl applyOp ss

/-- The `SpoolSet` invariant: the primary tree and the metadata tree
hold the same key set. -/
def keysEq (ss : SpoolSet) : Prop :=
  ∀ x : SpoolId, (getKey ss.db x).isSome = true ↔ (getKey ss.meta x).isSome = true

/-! ## Helper lemmas -/

/-- The `CorruptSpool` branch of `Spool::ensure_consistency` is
unreachable: it is guarded by a re-read of `END_KEY` being absent, but
the function returns early in exactly that case. -/
theorem ensureConsistency_no_corrupt (s : Spool) :
    Spool.ensureConsistency s ≠ some (.error SpoolError.CorruptSpool) := by
  unfold Spool.ensureConsistency
  cases hm : s.meta with
  | none => simp
  | some raw =>
    cases hl : consistencyLoop s.db (s.db.length + 1) (readU32 raw) <;> simp [hl]

theorem keysPresent_length_le (data : List (Bytes × Msg)) (ks : List Bytes)
    (hnd : ks.Nodup) (hmem : ∀ x ∈ ks, (getKey data x).isSome = true) :
    ks.length ≤ data.length := by
  have hsub : ks ⊆ data.map Prod.fst := fun x hx =>
    (getKey_isSome_iff_mem data x).1 (hmem x hx)
  have h := (List.subperm_of_subset hnd hsub).length_le
  simpa using h

theorem consistencyLoop_zero (db : List (Bytes × Msg)) (lastKey : Nat) :
    consistencyLoop db 0 lastKey =
      if (getKey db (be32 ((lastKey + 1) % 2 ^ 32))).isSome then none
      else some lastKey := rfl

theorem consistencyLoop_succ (db : List (Bytes × Msg)) (f lastKey : Nat) :
    consistencyLoop db (f + 1) lastKey =
      if (getKey db (be32 ((lastKey + 1) % 2 ^ 32))).isSome then
        consistencyLoop db f ((lastKey + 1) % 2 ^ 32)
      else some lastKey := rfl

/-- The repair loop walks from `k` up to the largest `m` reachable
through contiguously present keys and stops there, provided the fuel
covers the distance. -/
theorem consistencyLoop_eq (data : List (Bytes × Msg)) :
    ∀ fuel k m, k ≤ m → m + 1 < 2 ^ 32 → m - k ≤ fuel →
    (∀ j ∈ List.range' (k + 1) (m - k), (getKey data (be32 j)).isSome = true) →
    (getKey data (be32 (m + 1))).isSome = false →
    consistencyLoop data fuel k = some m := by
  intro fuel
  induction fuel with
  | zero =>
    intro k m hkm hm hfuel _hpres habs
    have hk : k = m := by omega
    subst hk
    rw [consistencyLoop_zero, Nat.mod_eq_of_lt hm, habs]
    simp
  | succ f ih =>
    intro k m hkm hm hfuel hpres habs
    by_cases hk : k = m
    · subst hk
      rw [consistencyLoop_succ, Nat.mod_eq_of_lt hm, habs]
      simp
    · have hklt : k < m := lt_of_le_of_ne hkm hk
      have hnext : (k + 1) % 2 ^ 32 = k + 1 := Nat.mod_eq_of_lt (by omega)
      have hpk : (getKey data (be32 (k + 1))).isSome = true := by
        refine hpres (k + 1) ?_
        rw [List.mem_range'_1]
        omega
      rw [consistencyLoop_succ, hnext, hpk]
      simp only [if_true]
      refine ih (k + 1) m (by omega) hm (by omega) ?_ habs
      intro j hj
      refine hpres j ?_
      rw [List.mem_range'_1] at hj ⊢
      omega

theorem keysEq_put (ss : SpoolSet) (spool_id : SpoolId) (public_key : PubKey)
    (h : keysEq ss) : keysEq (ss.put spool_id public_key) := by
  intro x
  by_cases hx : spool_id = x
  · subst hx
    simp [SpoolSet.put, getKey_setKey_same]
  · simp [SpoolSet.put, getKey_setKey_ne _ _ hx, getKey_setKey_ne _ _ hx, h x]

theorem keysEq_delete (ss : SpoolSet) (spool_id : SpoolId)
    (h : keysEq ss) : keysEq (ss.delete spool_id) := by
  intro x
  by_cases hx : spool_id = x
  · subst hx
    simp [SpoolSet.delete, getKey_delKey_same]
  · simp [SpoolSet.delete, getKey_delKey_ne _ hx, h x]

theorem getKey_ensureConsistency_db (ss : SpoolSet) (x : SpoolId) :
    getKey (ss.ensureConsistency).db x =
      if (getKey ss.meta x).isSome then getKey ss.db x else none := by
  simpa [SpoolSet.ensureConsistency] using
    getKey_filter (fun a => (getKey ss.meta a).isSome) ss.db x

theorem getKey_ensureConsistency_meta (ss : SpoolSet) (x : SpoolId) :
    getKey (ss.ensureConsistency).meta x =
      if ((getKey (ss.ensureConsistency).db x).isSome) then getKey ss.meta x
      else none := by
  have h := getKey_filter
    (fun a => (getKey (ss.db.filter (fun kv => (getKey ss.meta kv.1).isSome)) a).isSome)
    ss.meta x
  simpa [SpoolSet.ensureConsistency] using h

/-- Invariant of a fresh spool after a sequence of appends: the next
free slot is the message count, message `i` (0-based) sits under key
`be32 i`. -/
theorem appendAll_invariant (msgs : List Msg) :
    msgs.length ≤ 2 ^ 32 →
    (appendAll freshSpool msgs).lastKey =
      (if msgs.length = 0 then none else some (msgs.length - 1)) ∧
    ∀ i (hi : i < msgs.length),
      getKey (appendAll freshSpool msgs).db (be32 i) = some (msgs.get ⟨i, hi⟩) := by
  induction msgs using List.reverseRecOn with
  | nil =>
    intro _
    exact ⟨rfl, fun i hi => absurd hi (by simp)⟩
  | append_singleton l m ih =>
    intro h
    have hlen : l.length + 1 ≤ 2 ^ 32 := by simpa using h
    obtain ⟨hlk, hget⟩ := ih (by omega)
    have happ : appendAll freshSpool (l ++ [m]) =
        Spool.append (appendAll freshSpool l) m := by
      simp [appendAll, List.foldl_append]
    by_cases hl : l.length = 0
    · have hnil : l = [] := List.eq_nil_of_length_eq_zero hl
      subst hnil
      refine ⟨by simp [happ, appendAll, Spool.append, freshSpool], ?_⟩
      intro i hi
      have hi0 : i = 0 := by simpa using hi
      subst hi0
      simp [happ, appendAll, Spool.append, freshSpool, getKey_setKey_same]
    · have hl1 : 1 ≤ l.length := by omega
      have hlk' : (appendAll freshSpool l).lastKey = some (l.length - 1) := by
        rw [hlk, if_neg hl]
      have hmod : (l.length - 1 + 1) % 2 ^ 32 = l.length := by
        rw [Nat.sub_add_cancel hl1]
        exact Nat.mod_eq_of_lt (by omega)
      have happ2 : Spool.append (appendAll freshSpool l) m =
          { lastKey := some l.length,
            db := setKey (appendAll freshSpool l).db (be32 l.length) m,
            meta := increment_merge (appendAll freshSpool l).meta
              (be32 l.length) } := by
        simp only [Spool.append, hlk']
        rw [hmod]
      constructor
      · rw [happ, happ2]
        simp
      · intro i hi
        rw [happ, happ2]
        by_cases hi' : i = l.length
        · subst hi'
          rw [getKey_setKey_same]
          congr 1
          rw [List.get_eq_getElem, List.getElem_concat_length _ _ _ rfl]
        · have hilt : i < l.length := by
            have := hi
            simp only [List.length_append, List.length_singleton] at this
            omega
          have hne : be32 l.length ≠ be32 i := by
            intro hEq
            exact hi' (be32_inj (by omega) (by omega) hEq).symm
          rw [getKey_setKey_ne _ _ hne, hget i hilt]
          congr 1
          rw [List.get_eq_getElem, List.get_eq_getElem,
            List.getElem_append_left hilt]

/-- Preservation of the key-equality invariant by any sequence of
`put`/`delete` operations. -/
theorem keysEq_applyOps (ops : List SpoolSetOp) :
    ∀ ss : SpoolSet, keysEq ss → keysEq (applyOps ss ops) := by
  induction ops with
  | nil => intro ss h; simpa [applyOps] using h
  | cons op ops ih =>
    intro ss h
    have h1 : keysEq (applyOp ss op) := by
      cases op with
      | put spool_id public_key => exact keysEq_put ss spool_id public_key h
      | delete spool_id => exact keysEq_delete ss spool_id h
    simpa [applyOps, List.foldl_cons] using ih (applyOp ss op) h1

theorem ensureConsistency_db_isSome (ss : SpoolSet) (x : SpoolId) :
    (getKey (ss.ensureConsistency).db x).isSome = true ↔
      ((getKey ss.db x).isSome = true ∧ (getKey ss.meta x).isSome = true) := by
  rw [getKey_ensureConsistency_db]
  by_cases h : (getKey ss.meta x).isSome <;> simp [h]

theorem ensureConsistency_meta_isSome (ss : SpoolSet) (x : SpoolId) :
    (getKey (ss.ensureConsistency).meta x).isSome = true ↔
      ((getKey ss.db x).isSome = true ∧ (getKey ss.meta x).isSome = true) := by
  rw [getKey_ensureConsistency_meta]
  by_cases h : (getKey (ss.ensureConsistency).db x).isSome
  · have h2 := (ensureConsistency_db_isSome ss x).1 h
    simp [h, h2.1, h2.2]
  · simp only [h, Bool.false_eq_true, if_false, Option.isSome_none]
    constructor
    · intro hfalse; cases hfalse
    · intro hconj
      exact absurd ((ensureConsistency_db_isSome ss x).2 hconj) (by simpa using h)

/-! ## Claim theorems -/

/-- C1: `MultiSpool::create_spool` is claimed to return `Ok(spool_id)`
when the signature verifies and storage succeeds. The source instead
ends with `Err(MultiSpoolError::NoSuchSpool) // XXX`: this theorem shows
that under a verifying signature the operation creates the spool (it is
in the map and in the spool set afterwards) and nevertheless returns the
error — evidence that the code, not the claim, is wrong. -/
theorem claim_C1 (verify : VerifyFn) (ms : MultiSpool) (public_key : PubKey)
    (signature : Sig) (freshId : SpoolId)
    (h : verify public_key signature = true) :
    (ms.createSpool verify public_key signature freshId).1 =
      .error .NoSuchSpool ∧
    getKey (ms.createSpool verify public_key signature freshId).2.map freshId =
      some freshSpool ∧
    (ms.createSpool verify public_key signature freshId).2.spoolSet.has
      freshId = true := by
  refine ⟨?_, ?_, ?_⟩ <;>
    simp [MultiSpool.createSpool, h, SpoolSet.has, SpoolSet.put,
      getKey_setKey_same]

/-- Witness for C1 at a concrete verifying input. -/
theorem claim_C1_witness :
    ((({ map := [], spoolSet := { db := [], meta := [] } } :
        MultiSpool).createSpool (fun _ _ => true) 7 9
        (List.replicate 12 0)).1 = .error .NoSuchSpool) ∧
    getKey ((({ map := [], spoolSet := { db := [], meta := [] } } :
        MultiSpool).createSpool (fun _ _ => true) 7 9
        (List.replicate 12 0)).2.map) (List.replicate 12 0) =
      some freshSpool ∧
    ((({ map := [], spoolSet := { db := [], meta := [] } } :
        MultiSpool).createSpool (fun _ _ => true) 7 9
        (List.replicate 12 0)).2.spoolSet.has (List.replicate 12 0) = true) :=
  claim_C1 (fun _ _ => true) _ 7 9 (List.replicate 12 0) rfl

/-- C2 counterexample: after a single append to a freshly opened
(empty) spool, reading `be32 1` does not return the appended message
(it fails with `NoSuchMessage`); the message sits under `be32 0`. The
source's own test `spool_append_read_test` asserts this 0-based
numbering. -/
theorem claim_C2_cex :
    Spool.read (Spool.append freshSpool [7]) (be32 1) =
      .error SpoolError.NoSuchMessage ∧
    Spool.read (Spool.append freshSpool [7]) (be32 0) = .ok [7] := by
  constructor <;> rfl

/-- C2 (amended): appending `m_1, …, m_n` in order to a freshly opened
(empty) spool stores them at sequence positions 0, 1, …, n-1, so for
every `i < n` a read of the big-endian encoding of `i` returns exactly
`m_{i+1}`; in particular the first appended message is read back at
message id `be32 0`. -/
theorem claim_C2 (msgs : List Msg) (h : msgs.length ≤ 2 ^ 32)
    (i : Nat) (hi : i < msgs.length) :
    (appendAll freshSpool msgs).read (be32 i) = .ok (msgs.get ⟨i, hi⟩) := by
  have hg := (appendAll_invariant msgs h).2 i hi
  simp [Spool.read, hg]

/-- Witness for C2 (amended) on a concrete two-message spool. -/
theorem claim_C2_witness :
    (appendAll freshSpool [[1], [2]]).read (be32 0) = .ok [1] ∧
    (appendAll freshSpool [[1], [2]]).read (be32 1) = .ok [2] :=
  ⟨claim_C2 [[1], [2]] (by norm_num) 0 (by norm_num),
   claim_C2 [[1], [2]] (by norm_num) 1 (by norm_num)⟩

/-- C3: the claim says a spool whose metadata has `END_KEY` but whose
data store is empty fails to open with `CorruptSpool` and is
quarantined. The code cannot do this: `ensure_consistency` returns early
when `END_KEY` is absent, making its `CorruptSpool` branch unreachable
(third conjunct), so such a spool opens successfully with
`last_key = Some(k)` (first conjunct) and `MultiSpool::new` keeps it —
no quarantine happens (second conjunct). -/
theorem claim_C3 :
    Spool.new { data := [], meta := some (be32 1) } =
      some (.ok { lastKey := some 1, db := [], meta := some (be32 1) }) ∧
    MultiSpool.new
      { spoolSet := { db := [(List.replicate 12 0, [])],
                      meta := [(List.replicate 12 0, 3)] },
        spools := [(List.replicate 12 0,
                    { data := [], meta := some (be32 1) })] } =
      some (.ok { map := [(List.replicate 12 0,
                    { lastKey := some 1, db := [], meta := some (be32 1) })],
                  spoolSet := { db := [(List.replicate 12 0, [])],
                                meta := [(List.replicate 12 0, 3)] } }) ∧
    ∀ s : Spool,
      Spool.ensureConsistency s ≠ some (.error SpoolError.CorruptSpool) :=
  ⟨by rfl, by rfl, ensureConsistency_no_corrupt⟩

/-- C4: reopening a spool whose `END_KEY` reads `k` while the data tree
contains the contiguous keys `k+1 … m` (and not `m+1`) repairs the
state to `last_key = Some(m)` and `meta[END_KEY] = be32 m`; with
`END_KEY` absent the spool opens with `last_key = None` and nothing is
rewritten. -/
theorem claim_C4 :
    (∀ (data : List (Bytes × Msg)) (k m : Nat), k ≤ m → m + 1 < 2 ^ 32 →
      (∀ j ∈ List.range' (k + 1) (m - k), (getKey data (be32 j)).isSome = true) →
      (getKey data (be32 (m + 1))).isSome = false →
      Spool.new { data := data, meta := some (be32 k) } =
        some (.ok { lastKey := some m, db := data, meta := some (be32 m) })) ∧
    (∀ data : List (Bytes × Msg),
      Spool.new { data := data, meta := none } =
        some (.ok { lastKey := none, db := data, meta := none })) := by
  constructor
  · intro data k m hkm hm hpres habs
    have hkread : readU32 (be32 k) = k := readU32_be32_of_lt (by omega)
    have hnodup2 : ((List.range' (k + 1) (m - k)).map be32).Nodup := by
      refine List.Nodup.map_on ?_ (List.nodup_range' _ _)
      intro a ha b hb hab
      rw [List.mem_range'_1] at ha hb
      exact be32_inj (by omega) (by omega) hab
    have hmem2 : ∀ x ∈ (List.range' (k + 1) (m - k)).map be32,
        (getKey data x).isSome = true := by
      intro x hx
      obtain ⟨j, hj, rfl⟩ := List.mem_map.1 hx
      exact hpres j hj
    have hbound := keysPresent_length_le data _ hnodup2 hmem2
    rw [List.length_map, List.length_range'] at hbound
    have hloop := consistencyLoop_eq data (data.length + 1) k m hkm hm
      (by omega) hpres habs
    simp only [Spool.new, Spool.ensureConsistency, hkread, hloop,
      readU32_be32_of_lt (show m < 2 ^ 32 by omega)]
  · intro data
    rfl

/-- Witness for C4 on a concrete two-entry data tree with `END_KEY`
lagging at 2. -/
theorem claim_C4_witness :
    Spool.new { data := [(be32 2, [9]), (be32 3, [10])],
                meta := some (be32 2) } =
      some (.ok { lastKey := some 3, db := [(be32 2, [9]), (be32 3, [10])],
                  meta := some (be32 3) }) :=
  claim_C4.1 [(be32 2, [9]), (be32 3, [10])] 2 3 (by norm_num) (by norm_num)
    (by decide) (by decide)

/-- C5: the `increment_merge` operator keeps `new` when `old` is
absent, `old` on numeric equality, `old` when `old` is numerically
greater, `new` otherwise; the kept value always reads as the numeric
maximum, and under any sequence of merges the `END_KEY` value is
monotonically non-decreasing. -/
theorem claim_C5 :
    (∀ v : Bytes, increment_merge none v = some v) ∧
    (∀ o v : Bytes, readU32 o = readU32 v →
      increment_merge (some o) v = some o) ∧
    (∀ o v : Bytes, readU32 o > readU32 v →
      increment_merge (some o) v = some o) ∧
    (∀ o v : Bytes, readU32 o < readU32 v →
      increment_merge (some o) v = some v) ∧
    (∀ o v : Bytes, ∃ r, increment_merge (some o) v = some r ∧
      readU32 r = max (readU32 o) (readU32 v)) ∧
    (∀ (vs : List Bytes) (o : Bytes), ∃ r,
      vs.foldl increment_merge (some o) = some r ∧
      readU32 o ≤ readU32 r) := by
  have hstep : ∀ o v : Bytes, ∃ r, increment_merge (some o) v = some r ∧
      readU32 r = max (readU32 o) (readU32 v) := by
    intro o v
    by_cases h1 : readU32 o = readU32 v
    · exact ⟨o, by simp [increment_merge, h1], by omega⟩
    · by_cases h2 : readU32 o > readU32 v
      · exact ⟨o, by simp [increment_merge, h1, h2], by omega⟩
      · exact ⟨v, by simp [increment_merge, h1, h2], by omega⟩
  have hfold : ∀ (vs : List Bytes) (o : Bytes), ∃ r,
      vs.foldl increment_merge (some o) = some r ∧
      readU32 o ≤ readU32 r := by
    intro vs
    induction vs with
    | nil => intro o; exact ⟨o, rfl, Nat.le_refl _⟩
    | cons v vs ih =>
      intro o
      obtain ⟨r1, h1, hr1⟩ := hstep o v
      obtain ⟨r, h2, hr2⟩ := ih r1
      refine ⟨r, ?_, by omega⟩
      simpa [List.foldl_cons, h1] using h2
  refine ⟨fun v => rfl, ?_, ?_, ?_, hstep, hfold⟩
  · intro o v h
    simp [increment_merge, h]
  · intro o v h
    have h1 : ¬ (readU32 o = readU32 v) := by omega
    simp [increment_merge, h1, h]
  · intro o v h
    have h1 : ¬ (readU32 o = readU32 v) := by omega
    have h2 : ¬ (readU32 o > readU32 v) := by omega
    simp [increment_merge, h1, h2]

/-- Witness for C5: merging a numerically smaller value keeps the old
one. -/
theorem claim_C5_witness :
    increment_merge (some (be32 5)) (be32 3) = some (be32 5) :=
  claim_C5.2.2.1 (be32 5) (be32 3) (by decide)

/-- C6: for a spool id stored in the `SpoolSet` with public key `K`
(and, per the MultiSpool invariant, present in the map),
`purge_spool(id, sig)` succeeds iff `sig` verifies over `K`'s own bytes
under `K`; on verification failure it returns `SignatureError` with the
entire state unchanged. -/
theorem claim_C6 (verify : VerifyFn) (ms : MultiSpool) (spool_id : SpoolId)
    (signature : Sig) (K : PubKey)
    (hK : getKey ms.spoolSet.meta spool_id = some K)
    (hmap : (getKey ms.map spool_id).isSome = true) :
    ((ms.purgeSpool verify spool_id signature).1 = .ok () ↔
      verify K signature = true) ∧
    (verify K signature = false →
      ms.purgeSpool verify spool_id signature = (.error .SignatureError, ms)) := by
  obtain ⟨sp, hsp⟩ : ∃ sp, getKey ms.map spool_id = some sp := by
    cases h : getKey ms.map spool_id with
    | none => rw [h] at hmap; simp at hmap
    | some sp => exact ⟨sp, rfl⟩
  constructor
  · constructor
    · intro hok
      by_contra hv
      rw [Bool.not_eq_true] at hv
      simp [MultiSpool.purgeSpool, SpoolSet.getPublicKey, hK, hv] at hok
    · intro hv
      simp [MultiSpool.purgeSpool, SpoolSet.getPublicKey, hK, hv, hsp]
  · intro hv
    simp [MultiSpool.purgeSpool, SpoolSet.getPublicKey, hK, hv]

/-- Witness for C6: a verifying signature purges the concrete
one-spool state. -/
theorem claim_C6_witness :
    (MultiSpool.purgeSpool (fun k s => decide (k = 7 ∧ s = 9))
      { map := [(List.replicate 12 0, freshSpool)],
        spoolSet := { db := [(List.replicate 12 0, [])],
                      meta := [(List.replicate 12 0, 7)] } }
      (List.replicate 12 0) 9).1 = .ok () :=
  (claim_C6 (fun k s => decide (k = 7 ∧ s = 9)) _ (List.replicate 12 0) 9 7
    (by decide) (by decide)).1.mpr (by decide)

/-- C7: `append_to_spool` on an absent spool id fails with
`NoSuchSpool` and leaves the state unchanged; on a present id it
appends the message to that spool. No signature is taken and none is
verified — success depends only on the id being present. -/
theorem claim_C7 (ms : MultiSpool) (spool_id : SpoolId) (message : Msg) :
    (getKey ms.map spool_id = none →
      ms.appendToSpool spool_id message = (.error .NoSuchSpool, ms)) ∧
    (∀ sp, getKey ms.map spool_id = some sp →
      ms.appendToSpool spool_id message =
        (.ok (), { ms with
          map := setKey ms.map spool_id (sp.append message) })) := by
  constructor
  · intro h; simp [MultiSpool.appendToSpool, h]
  · intro sp h; simp [MultiSpool.appendToSpool, h]

/-- Witness for C7: appending to the never-created all-zero id fails
with `NoSuchSpool` and changes nothing. -/
theorem claim_C7_witness :
    MultiSpool.appendToSpool
      { map := [], spoolSet := { db := [], meta := [] } }
      (List.replicate 12 0) [5] =
    (.error .NoSuchSpool,
      { map := [], spoolSet := { db := [], meta := [] } }) :=
  (claim_C7 { map := [], spoolSet := { db := [], meta := [] } }
    (List.replicate 12 0) [5]).1 rfl

/-- C8: `put`/`delete` sequences preserve the equality of the two
`SpoolSet` trees' key sets, and the open-time repair restores the
equality from any state by keeping exactly the keys present in both
trees (hence deleting every key present in only one). -/
theorem claim_C8 (ss : SpoolSet) (ops : List SpoolSetOp) :
    (keysEq ss → keysEq (applyOps ss ops)) ∧
    (∀ x, (getKey (ss.ensureConsistency).db x).isSome = true ↔
      ((getKey ss.db x).isSome = true ∧ (getKey ss.meta x).isSome = true)) ∧
    (∀ x, (getKey (ss.ensureConsistency).meta x).isSome = true ↔
      ((getKey ss.db x).isSome = true ∧ (getKey ss.meta x).isSome = true)) ∧
    keysEq (ss.ensureConsistency) := by
  refine ⟨keysEq_applyOps ops ss, ensureConsistency_db_isSome ss,
    ensureConsistency_meta_isSome ss, ?_⟩
  intro x
  rw [ensureConsistency_db_isSome ss x, ensureConsistency_meta_isSome ss x]

/-- Witness for C8: the invariant survives a concrete `put` starting
from the empty (trivially consistent) state. -/
theorem claim_C8_witness :
    keysEq (applyOps { db := [], meta := [] }
      [SpoolSetOp.put (List.replicate 12 0) 5]) :=
  (claim_C8 { db := [], meta := [] }
    [SpoolSetOp.put (List.replicate 12 0) 5]).1 (fun _ => Iff.rfl)

/-- C9: the claim says every dispatcher operation returns a
`SpoolResponse` (non-"OK" status on failure) without panicking, in
particular on mis-sized byte fields. The source panics instead: with a
well-formed 64-byte signature and 32-byte public key but an empty
`SpoolID`, `purge_spool` and `read_from_spool` hit
`clone_from_slice` length panics, and `append_to_spool` hits one even
with a well-sized message (`none` = panic in the model). -/
theorem claim_C9 :
    dispatchPurgeSpool (fun _ _ => true)
      { Command := 1, SpoolID := [], Signature := List.replicate 64 0,
        PublicKey := List.replicate 32 0, MessageID := [], Message := [] }
      { map := [], spoolSet := { db := [], meta := [] } } = none ∧
    dispatchAppendToSpool 100
      { Command := 2, SpoolID := [], Signature := List.replicate 64 0,
        PublicKey := List.replicate 32 0, MessageID := [],
        Message := List.replicate 100 0 }
      { map := [], spoolSet := { db := [], meta := [] } } = none ∧
    dispatchReadFromSpool (fun _ _ => true)
      { Command := 3, SpoolID := [], Signature := List.replicate 64 0,
        PublicKey := List.replicate 32 0, MessageID := [], Message := [] }
      { map := [], spoolSet := { db := [], meta := [] } } = none :=
  ⟨by rfl, by rfl, by rfl⟩

/-- C10: after `purge`, `last_key` is `Some(0)` (not `None`), so the
next append writes at sequence number 1, whereas the first append on a
freshly opened empty spool writes at sequence number 0; any read after
purge fails with `NoSuchMessage` because the data tree is cleared. -/
theorem claim_C10 (sp : Spool) (m m' : Msg) (mid : Bytes) :
    sp.purge.lastKey = some 0 ∧
    ((sp.purge.append m).lastKey = some 1 ∧
      getKey (sp.purge.append m).db (be32 1) = some m ∧
      getKey (sp.purge.append m).db (be32 0) = none) ∧
    ((freshSpool.append m').lastKey = some 0 ∧
      getKey (freshSpool.append m').db (be32 0) = some m') ∧
    sp.purge.read mid = .error SpoolError.NoSuchMessage := by
  have happ : sp.purge.append m =
      { lastKey := some 1, db := setKey [] (be32 1) m,
        meta := increment_merge none (be32 1) } := by
    simp only [Spool.purge, Spool.append]
    norm_num
  refine ⟨rfl, ⟨?_, ?_, ?_⟩, ⟨rfl, ?_⟩, ?_⟩
  · rw [happ]
  · rw [happ]; exact getKey_setKey_same _ _ _
  · rw [happ, getKey_setKey_ne _ _ (show be32 1 ≠ be32 0 by decide)]
    rfl
  · simp [freshSpool, Spool.append, getKey_setKey_same]
  · simp [Spool.purge, Spool.read, getKey]

end Multispool
